import Mathlib

/-!
# Verification of the jdrummer groove engine

Shallow embedding of the groove playback engine (`Source/GrooveManager.cpp`)
and the rhythm matcher (`Source/AudioAnalyzer.cpp`).  `double` values are
modelled as exact rationals `ℚ`; C `int` values as `ℤ`; a MIDI file's parsed
byte content (after JUCE's `convertTimestampTicksToSeconds`) is modelled as a
list of tracks of timestamped raw messages, with `none` standing for a missing,
unopenable or unparsable file.
-/

namespace JDrummer

/-- The payload of a stored `juce::MidiMessage` note event: whether it is a
note-on, and an opaque note identifier (note number/channel/velocity).  -/
structure NoteMsg where
  noteOn : Bool
  note : ℕ
  deriving DecidableEq, Repr

/-- A raw message inside a MIDI file, as consumed by
`GrooveManager::parseMidiFile`: tempo meta events, time-signature meta events,
note on/off events, and anything else (discarded). -/
inductive RawMsg where
  | tempo (secondsPerQuarterNote : ℚ)
  | timeSig (num den : ℤ)
  | note (msg : NoteMsg)
  | other
  deriving DecidableEq, Repr

/-- A raw MIDI-file event: a timestamp (in seconds, after
`convertTimestampTicksToSeconds`) plus the message. -/
structure RawEvent where
  timeStamp : ℚ
  msg : RawMsg
  deriving DecidableEq, Repr

/-- `Groove::MidiEvent`: a beat-time plus the stored message. -/
structure MidiEvent where
  timeInBeats : ℚ
  message : NoteMsg
  deriving DecidableEq, Repr

instance : Inhabited MidiEvent := ⟨⟨0, ⟨false, 0⟩⟩⟩

/-- `Groove` (GrooveManager.h).  The `file` member is modelled by
`fileTracks`: `some tracks` is a readable, parsable MIDI file with the given
track contents; `none` is a missing/unreadable/unparsable file. -/
structure Groove where
  name : String := ""
  category : String := ""
  fileTracks : Option (List (List RawEvent)) := none
  lengthInBeats : ℚ := 4
  numerator : ℤ := 4
  denominator : ℤ := 4
  events : List MidiEvent := []
  isLoaded : Bool := false
  deriving DecidableEq, Repr

/-- `GrooveCategory`. -/
structure GrooveCategory where
  name : String := ""
  grooves : List Groove := []
  deriving DecidableEq, Repr

/-- `ComposerItem`. -/
structure ComposerItem where
  grooveCategoryIndex : ℤ
  grooveIndex : ℤ
  startBeat : ℚ
  lengthInBeats : ℚ
  deriving DecidableEq, Repr

instance : Inhabited ComposerItem := ⟨⟨0, 0, 0, 0⟩⟩

/-- The mutable state of a `GrooveManager` (private members of the class). -/
structure GrooveManagerState where
  categories : List GrooveCategory := []
  playing : Bool := false
  looping : Bool := true
  currentCategoryIndex : ℤ := -1
  currentGrooveIndex : ℤ := -1
  playbackStartPpq : ℚ := 0
  lastProcessedPpq : ℚ := -1
  internalBpm : ℚ := 120
  internalPositionBeats : ℚ := 0
  useInternalClock : Bool := true
  composerItems : List ComposerItem := []
  composerPlaying : Bool := false
  composerStartPpq : ℚ := 0
  currentSampleRate : ℚ := 44100
  deriving DecidableEq, Repr

/-! ## MIDI parsing (`GrooveManager::parseMidiFile`) -/

/-- The running parse state inside `parseMidiFile`: the single most recent
tempo, the time-signature fields written into the groove, and the accumulated
note events. -/
structure ParseState where
  tempoBpm : ℚ
  numerator : ℤ
  denominator : ℤ
  events : List MidiEvent
  deriving DecidableEq, Repr

/-- One iteration of the event loop of `parseMidiFile`: tempo meta events
update the running tempo (`60000000.0 / secPerQuarter / 1000000.0`),
time-signature meta events overwrite the numerator/denominator, note on/off
events are converted to beats with the current running tempo and appended. -/
def processRawEvent (st : ParseState) (e : RawEvent) : ParseState :=
  match e.msg with
  | RawMsg.tempo spq => { st with tempoBpm := 60000000 / spq / 1000000 }
  | RawMsg.timeSig n d => { st with numerator := n, denominator := d }
  | RawMsg.note m =>
      { st with events := st.events ++ [⟨e.timeStamp * (st.tempoBpm / 60), m⟩] }
  | RawMsg.other => st

/-- The track/event double loop of `parseMidiFile`. -/
def parseTracks (tracks : List (List RawEvent)) : ParseState :=
  tracks.foldl (fun st t => t.foldl processRawEvent st) ⟨120, 4, 4, []⟩

/-- `GrooveManager::calculateGrooveLength`. -/
def calculateGrooveLength (groove : Groove) : ℚ :=
  if groove.events = [] then
    4
  else
    let maxTime := groove.events.foldl (fun m e => max m e.timeInBeats) 0
    let beatsPerBar : ℚ := (groove.numerator : ℚ)
    let bars : ℚ := (⌈maxTime / beatsPerBar⌉ : ℚ)
    let bars := if bars < 1 then 1 else bars
    bars * beatsPerBar

/-- `GrooveManager::parseMidiFile`.  Returns `none` exactly when the C++
function returns `false` (missing/unopenable/unparsable file), in which case
the groove is left unchanged; otherwise returns the updated groove. -/
def parseMidiFile (groove : Groove) : Option Groove :=
  match groove.fileTracks with
  | none => none
  | some tracks =>
      let st := parseTracks tracks
      let sorted := st.events.mergeSort (fun a b => a.timeInBeats ≤ b.timeInBeats)
      let g1 := { groove with
                    events := sorted
                    numerator := st.numerator
                    denominator := st.denominator }
      some { g1 with lengthInBeats := calculateGrooveLength g1, isLoaded := true }

/-! ## Catalog access and loading -/

instance : Inhabited GrooveCategory := ⟨{}⟩
instance : Inhabited Groove := ⟨{}⟩

/-- `GrooveManager::getGroove` (bounds-checked lookup). -/
def getGroove (st : GrooveManagerState) (categoryIndex grooveIndex : ℤ) :
    Option Groove :=
  if categoryIndex < 0 ∨ (st.categories.length : ℤ) ≤ categoryIndex then none
  else
    let category := st.categories.getD categoryIndex.toNat default
    if grooveIndex < 0 ∨ (category.grooves.length : ℤ) ≤ grooveIndex then none
    else some (category.grooves.getD grooveIndex.toNat default)

/-- Replace the groove at the given (in-bounds) indices. -/
def setGroove (st : GrooveManagerState) (categoryIndex grooveIndex : ℤ)
    (g : Groove) : GrooveManagerState :=
  let updateCat := fun (cat : GrooveCategory) =>
    { cat with grooves := cat.grooves.set grooveIndex.toNat g }
  { st with categories := st.categories.modify updateCat categoryIndex.toNat }

/-- `GrooveManager::loadGroove`: bounds checks, no-op on an already loaded
groove, otherwise parse the file.  Returns the C++ return value together with
the (possibly updated) state. -/
def loadGroove (st : GrooveManagerState) (categoryIndex grooveIndex : ℤ) :
    Bool × GrooveManagerState :=
  match getGroove st categoryIndex grooveIndex with
  | none => (false, st)
  | some groove =>
      if groove.isLoaded then (true, st)
      else
        match parseMidiFile groove with
        | none => (false, st)
        | some g => (true, setGroove st categoryIndex grooveIndex g)

/-! ## Playback control -/

/-- `GrooveManager::startPlayback`. -/
def startPlayback (st : GrooveManagerState) (categoryIndex grooveIndex : ℤ) :
    GrooveManagerState :=
  let ok := (loadGroove st categoryIndex grooveIndex).1
  let st1 := (loadGroove st categoryIndex grooveIndex).2
  if !ok then st1
  else
    { st1 with
        currentCategoryIndex := categoryIndex
        currentGrooveIndex := grooveIndex
        playing := true
        playbackStartPpq := -1
        lastProcessedPpq := -1
        internalPositionBeats := 0 }

/-- `GrooveManager::stopPlayback`. -/
def stopPlayback (st : GrooveManagerState) : GrooveManagerState :=
  { st with playing := false, currentCategoryIndex := -1, currentGrooveIndex := -1 }

/-- `GrooveManager::getComposerLengthInBeats`. -/
def getComposerLengthInBeats (items : List ComposerItem) : ℚ :=
  items.foldl (fun length item => length + item.lengthInBeats) 0

/-- `GrooveManager::startComposerPlayback`: requires a non-empty timeline,
loads every referenced groove, then enters composer playback and stops
single-groove playback. -/
def startComposerPlayback (st : GrooveManagerState) : GrooveManagerState :=
  if st.composerItems = [] then st
  else
    let st1 := st.composerItems.foldl
      (fun s item => (loadGroove s item.grooveCategoryIndex item.grooveIndex).2) st
    { st1 with
        composerPlaying := true
        playing := false
        composerStartPpq := -1
        lastProcessedPpq := -1
        internalPositionBeats := 0 }

/-- `GrooveManager::stopComposerPlayback`. -/
def stopComposerPlayback (st : GrooveManagerState) : GrooveManagerState :=
  { st with composerPlaying := false }

/-! ## Composer timeline operations -/

/-- `GrooveManager::addToComposer`: load the groove (silent no-op on failure),
then append an item at the current end of the timeline; `barCount <= 0` means
the full groove length, otherwise `barCount * numerator` beats clipped to the
groove's own length. -/
def addToComposer (st : GrooveManagerState) (categoryIndex grooveIndex : ℤ)
    (barCount : ℤ) : GrooveManagerState :=
  let ok := (loadGroove st categoryIndex grooveIndex).1
  let st1 := (loadGroove st categoryIndex grooveIndex).2
  if !ok then st1
  else
    match getGroove st1 categoryIndex grooveIndex with
    | none => st1
    | some groove =>
        let len0 : ℚ :=
          if barCount ≤ 0 then groove.lengthInBeats
          else
            let beatsPerBar : ℚ := (groove.numerator : ℚ)
            let l : ℚ := (barCount : ℚ) * beatsPerBar
            if groove.lengthInBeats < l then groove.lengthInBeats else l
        let item : ComposerItem :=
          ⟨categoryIndex, grooveIndex, getComposerLengthInBeats st1.composerItems, len0⟩
        { st1 with composerItems := st1.composerItems ++ [item] }

/-- `GrooveManager::removeFromComposer`: bounds-checked erase, then every item
after the removed one has its `startBeat` shifted left by the removed length. -/
def removeFromComposer (st : GrooveManagerState) (index : ℤ) :
    GrooveManagerState :=
  if index < 0 ∨ (st.composerItems.length : ℤ) ≤ index then st
  else
    let i := index.toNat
    let removedLength := (st.composerItems.getD i default).lengthInBeats
    let items1 := st.composerItems.eraseIdx i
    let items2 := items1.take i ++
      (items1.drop i).map (fun it => { it with startBeat := it.startBeat - removedLength })
    { st with composerItems := items2 }

/-- `GrooveManager::clearComposer`. -/
def clearComposer (st : GrooveManagerState) : GrooveManagerState :=
  { st with composerItems := [], composerPlaying := false }

/-- The final loop of `moveComposerItem`: reassign every `startBeat` as the
running sum of lengths. -/
def repackFrom (s : ℚ) : List ComposerItem → List ComposerItem
  | [] => []
  | item :: rest => { item with startBeat := s } :: repackFrom (s + item.lengthInBeats) rest

/-- `GrooveManager::moveComposerItem`: bounds checks, erase + insert, then
recompute all start beats as a running sum. -/
def moveComposerItem (st : GrooveManagerState) (fromIndex toIndex : ℤ) :
    GrooveManagerState :=
  if fromIndex < 0 ∨ (st.composerItems.length : ℤ) ≤ fromIndex then st
  else if toIndex < 0 ∨ (st.composerItems.length : ℤ) ≤ toIndex then st
  else if fromIndex = toIndex then st
  else
    let item := st.composerItems.getD fromIndex.toNat default
    let items1 := st.composerItems.eraseIdx fromIndex.toNat
    let items2 := items1.insertIdx toIndex.toNat item
    { st with composerItems := repackFrom 0 items2 }

/-! ## The per-block scheduler (`GrooveManager::processBlock`)

The `while (pos >= L) pos -= L;` wrap loops are modelled in closed form: the
number of executed iterations is `⌊pos / L⌋` whenever the loop runs at all
(`L ≤ pos` and `0 < L`), and `0` otherwise.  (For `L ≤ 0 ≤ pos - L` the C++
loop would not terminate; no reachable call has a non-positive length, and the
composer loop explicitly guards `composerLength > 0`.)  The lemmas
`wrapIters_of_lt`, `wrapIters_step` below show the closed form satisfies the
loop's defining recurrence. -/

/-- Number of iterations of a `while (pos >= L) pos -= L;` loop (guarded by
`0 < L`, as the composer loop is). -/
def wrapIters (pos L : ℚ) : ℤ :=
  if L ≤ 0 then 0
  else if pos < L then 0
  else ⌊pos / L⌋

/-- The event-selection test of the single-groove branch of `processBlock`
(lines 389–403): in a non-wrapping block the scan interval is
`(lastPosition, groovePosition]`; in a wrapping block it is the union of the
tail `(lastPosition, L]` and the head `[0, groovePosition]`, tested as a
disjunction. -/
def singleShouldTrigger (lastPosition groovePosition t : ℚ) : Bool :=
  if lastPosition ≤ groovePosition then
    decide (lastPosition < t) && decide (t ≤ groovePosition)
  else
    decide (lastPosition < t) || decide (t ≤ groovePosition)

/-- The single-groove event scan: the events pushed to `midiOut`, in stored
order. -/
def singleEmit (events : List MidiEvent) (lastPosition groovePosition : ℚ) :
    List MidiEvent :=
  events.filter (fun e => singleShouldTrigger lastPosition groovePosition e.timeInBeats)

/-- `lastPosition` computation in the internal-clock single branch
(lines 369–376). -/
def internalLastPosition (groovePosition beatsThisBlock L : ℚ) (looping : Bool) : ℚ :=
  let lp := groovePosition - beatsThisBlock
  let lp := if lp < 0 ∧ looping then lp + L else lp
  if lp < 0 then 0 else lp

/-- `lastPosition` computation in the DAW-clock single branch
(lines 377–387). -/
def dawLastPosition (lp L : ℚ) (looping : Bool) : ℚ :=
  if looping then
    let lp := lp - (wrapIters lp L : ℚ) * L
    if lp < 0 then 0 else lp
  else lp

/-- `lastPositionInComposer` computation in the internal-clock composer branch
(lines 455–462). -/
def internalLastPositionC (composerPosition beatsThisBlock L : ℚ) (looping : Bool) : ℚ :=
  let lp := composerPosition - beatsThisBlock
  let lp := if lp < 0 ∧ looping ∧ 0 < L then lp + L else lp
  if lp < 0 then 0 else lp

/-- `lastPositionInComposer` computation in the DAW-clock composer branch
(lines 463–468). -/
def dawLastPositionC (lp L : ℚ) (looping : Bool) : ℚ :=
  if looping = true ∧ L ≤ lp ∧ 0 < L then 0 else lp

/-- The contribution of one composer item in the per-item loop of
`processBlock` (lines 471–498): skipped if the groove is missing or unloaded,
skipped unless `composerPosition` lies inside the item's window, otherwise the
item's groove events within the translated scan interval, clipped to the
item's own length. -/
def composerItemContribution (grooveOf : ℤ → ℤ → Option Groove)
    (composerPosition lastPositionInComposer : ℚ) (item : ComposerItem) :
    List MidiEvent :=
  match grooveOf item.grooveCategoryIndex item.grooveIndex with
  | none => []
  | some groove =>
      if !groove.isLoaded then []
      else if item.startBeat ≤ composerPosition ∧
              composerPosition < item.startBeat + item.lengthInBeats then
        let positionInGroove := composerPosition - item.startBeat
        let lastPosInGroove := lastPositionInComposer - item.startBeat
        let lastPosInGroove := if lastPosInGroove < 0 then 0 else lastPosInGroove
        groove.events.filter (fun e =>
          decide (e.timeInBeats < item.lengthInBeats) &&
          decide (lastPosInGroove < e.timeInBeats) &&
          decide (e.timeInBeats ≤ positionInGroove))
      else []

/-- The whole per-item loop of the composer branch. -/
def composerEmit (grooveOf : ℤ → ℤ → Option Groove) (items : List ComposerItem)
    (composerPosition lastPositionInComposer : ℚ) : List MidiEvent :=
  items.flatMap (composerItemContribution grooveOf composerPosition lastPositionInComposer)

/-- The single-groove branch of `processBlock` (lines 322–412), entered when
`playing && !composerPlaying`.  Returns the new state and the emitted
messages. -/
def processSingleBranch (st : GrooveManagerState) (useInternal : Bool)
    (currentPosition previousPosition beatsThisBlock : ℚ) :
    GrooveManagerState × List NoteMsg :=
  match getGroove st st.currentCategoryIndex st.currentGrooveIndex with
  | none => ({ st with playing := false }, [])
  | some groove =>
      if !groove.isLoaded then ({ st with playing := false }, [])
      else
        -- first-block initialisation
        let firstBlock := st.playbackStartPpq < 0
        let st := if firstBlock then
            { st with playbackStartPpq := currentPosition, internalPositionBeats := 0 }
          else st
        let previousPosition := if firstBlock then currentPosition else previousPosition
        let groovePosition := currentPosition - st.playbackStartPpq
        let groovePosition := if useInternal then st.internalPositionBeats else groovePosition
        let L := groove.lengthInBeats
        -- looping wrap / non-looping stop
        if st.looping then
          let k : ℚ := (wrapIters groovePosition L : ℚ)
          let groovePosition := groovePosition - k * L
          let st := if useInternal then
              { st with internalPositionBeats := st.internalPositionBeats - k * L }
            else
              { st with playbackStartPpq := st.playbackStartPpq + k * L }
          let lastPosition :=
            if useInternal then
              internalLastPosition groovePosition beatsThisBlock L st.looping
            else
              dawLastPosition (previousPosition - st.playbackStartPpq) L st.looping
          let out := singleEmit groove.events lastPosition groovePosition
          ({ st with lastProcessedPpq := currentPosition }, out.map (fun e => e.message))
        else if L ≤ groovePosition then
          ({ st with playing := false }, [])
        else
          let lastPosition :=
            if useInternal then
              internalLastPosition groovePosition beatsThisBlock L st.looping
            else
              dawLastPosition (previousPosition - st.playbackStartPpq) L st.looping
          let out := singleEmit groove.events lastPosition groovePosition
          ({ st with lastProcessedPpq := currentPosition }, out.map (fun e => e.message))

/-- The composer branch of `processBlock` (lines 415–501), entered when
`composerPlaying`. -/
def processComposerBranch (st : GrooveManagerState) (useInternal : Bool)
    (currentPosition previousPosition beatsThisBlock : ℚ) :
    GrooveManagerState × List NoteMsg :=
  -- first-block initialisation
  let firstBlock := st.composerStartPpq < 0
  let st := if firstBlock then
      { st with composerStartPpq := currentPosition, internalPositionBeats := 0 }
    else st
  let previousPosition := if firstBlock then currentPosition else previousPosition
  let composerPosition :=
    if useInternal then st.internalPositionBeats else currentPosition - st.composerStartPpq
  let composerLength := getComposerLengthInBeats st.composerItems
  if st.looping then
    let k : ℚ := (wrapIters composerPosition composerLength : ℚ)
    let composerPosition := composerPosition - k * composerLength
    let st := if useInternal then
        { st with internalPositionBeats := st.internalPositionBeats - k * composerLength }
      else
        { st with composerStartPpq := st.composerStartPpq + k * composerLength }
    let lastPositionInComposer :=
      if useInternal then
        internalLastPositionC composerPosition beatsThisBlock composerLength st.looping
      else
        dawLastPositionC (previousPosition - st.composerStartPpq) composerLength st.looping
    let out := composerEmit (fun ci gi => getGroove st ci gi) st.composerItems
      composerPosition lastPositionInComposer
    ({ st with lastProcessedPpq := currentPosition }, out.map (fun e => e.message))
  else if composerLength ≤ composerPosition then
    ({ st with composerPlaying := false }, [])
  else
    let lastPositionInComposer :=
      if useInternal then
        internalLastPositionC composerPosition beatsThisBlock composerLength st.looping
      else
        dawLastPositionC (previousPosition - st.composerStartPpq) composerLength st.looping
    let out := composerEmit (fun ci gi => getGroove st ci gi) st.composerItems
      composerPosition lastPositionInComposer
    ({ st with lastProcessedPpq := currentPosition }, out.map (fun e => e.message))

/-- `GrooveManager::processBlock`.  Returns the new state together with the
messages pushed to `midiOut`. -/
def processBlock (st : GrooveManagerState) (bpm ppqPosition : ℚ)
    (hostIsPlaying : Bool) (numSamples : ℕ) : GrooveManagerState × List NoteMsg :=
  let useInternal := !hostIsPlaying || st.useInternalClock
  let effectiveBpm :=
    if st.useInternalClock then st.internalBpm
    else if 0 < bpm then bpm else st.internalBpm
  let beatsPerSecond := effectiveBpm / 60
  let secondsPerBlock := (numSamples : ℚ) / st.currentSampleRate
  let beatsThisBlock := beatsPerSecond * secondsPerBlock
  let advance := useInternal && (st.playing || st.composerPlaying)
  let previousPosition :=
    if advance then st.internalPositionBeats else st.lastProcessedPpq
  let st := if advance then
      { st with internalPositionBeats := st.internalPositionBeats + beatsThisBlock }
    else st
  let currentPosition := if advance then st.internalPositionBeats else ppqPosition
  if st.playing && !st.composerPlaying then
    processSingleBranch st useInternal currentPosition previousPosition beatsThisBlock
  else if st.composerPlaying then
    processComposerBranch st useInternal currentPosition previousPosition beatsThisBlock
  else
    (st, [])

/-! ## Rhythm matching (`AudioAnalyzer::calculatePatternSimilarity`)

All intermediate arithmetic (histograms, normalisation, dot products) is exact
rational; only the final cosine term needs a real square root.  C's
`fmod`/`static_cast<int>` truncate toward zero, modelled by `cTrunc`. -/

/-- `RhythmPattern` (AudioAnalyzer.h). -/
structure RhythmPattern where
  bpm : ℚ := 120
  confidence : ℚ := 0
  onsetTimesBeats : List ℚ := []
  beatsPerBar : ℤ := 4
  lengthInBeats : ℚ := 0
  deriving DecidableEq, Repr

/-- `GrooveMatch` (AudioAnalyzer.h); the score is a real number. -/
structure GrooveMatch where
  categoryIndex : ℤ
  grooveIndex : ℤ
  matchScore : ℝ
  bpmDifference : ℝ

/-- Truncation toward zero, the rounding of C's `static_cast<int>` and the
quotient used by `fmod`. -/
def cTrunc (q : ℚ) : ℤ :=
  if 0 ≤ q then ⌊q⌋ else ⌈q⌉

/-- C's `fmod x y = x - trunc(x / y) * y`. -/
def cFmod (x y : ℚ) : ℚ :=
  x - (cTrunc (x / y) : ℚ) * y

/-- The 16th-note histogram slot of a beat time:
`clamp(int(fmod(t, 4) / 4 * 16), 0, 15)`. -/
def slotOf (t : ℚ) : ℕ :=
  let normalizedTime := cFmod t 4
  let slot := cTrunc (normalizedTime / 4 * 16)
  (min 15 (max 0 slot)).toNat

/-- Increment one slot of a histogram. -/
def bumpSlot (h : ℕ → ℕ) (s : ℕ) : ℕ → ℕ :=
  fun i => if i = s then h i + 1 else h i

/-- The detected-onset histogram `audioHits` (accumulated over all folded
bars). -/
def audioHits (onsets : List ℚ) : ℕ → ℕ :=
  onsets.foldl (fun h t => bumpSlot h (slotOf t)) (fun _ => 0)

/-- The groove histogram `grooveHits`: only note-on events are counted. -/
def grooveHits (events : List MidiEvent) : ℕ → ℕ :=
  events.foldl
    (fun h e => if e.message.noteOn then bumpSlot h (slotOf e.timeInBeats) else h)
    (fun _ => 0)

/-- `maxAudio` / `maxGroove`: the histogram maximum, starting from 1. -/
def histMax (h : ℕ → ℕ) : ℕ :=
  (List.range 16).foldl (fun m i => max m (h i)) 1

/-- The number of note-on events in an event list. -/
def noteOnCount (events : List MidiEvent) : ℕ :=
  (events.filter (fun e => e.message.noteOn)).length

/-- The `grooveNoteCount` loop of `calculatePatternSimilarity`. -/
def grooveNoteCount (groove : Groove) : ℕ :=
  noteOnCount groove.events

/-- The dot product of the two max-normalised 16-slot vectors. -/
def dotProd (a b : ℕ → ℕ) (maxA maxB : ℕ) : ℚ :=
  (List.range 16).foldl
    (fun acc i => acc + ((a i : ℚ) / maxA) * ((b i : ℚ) / maxB)) 0

/-- The squared norm of one max-normalised 16-slot vector. -/
def normSq (a : ℕ → ℕ) (maxA : ℕ) : ℚ :=
  (List.range 16).foldl
    (fun acc i => acc + ((a i : ℚ) / maxA) * ((a i : ℚ) / maxA)) 0

/-- The fuzzy position-agreement loop: returns
`(positionMatches, totalPositions)`. -/
def positionCounts (a b : ℕ → ℕ) : ℕ × ℕ :=
  (List.range 16).foldl
    (fun p i =>
      let audioHasHit := 0 < a i
      let grooveHasHit := 0 < b i
      let grooveHasNearbyHit := grooveHasHit ∨ (0 < i ∧ 0 < b (i - 1)) ∨
        (i < 15 ∧ 0 < b (i + 1))
      let audioHasNearbyHit := audioHasHit ∨ (0 < i ∧ 0 < a (i - 1)) ∨
        (i < 15 ∧ 0 < a (i + 1))
      if audioHasHit ∨ grooveHasHit then
        if audioHasHit ∧ grooveHasNearbyHit then (p.1 + 1, p.2 + 1)
        else if grooveHasHit ∧ audioHasNearbyHit then (p.1 + 1, p.2 + 1)
        else (p.1, p.2 + 1)
      else p)
    (0, 0)

/-- `positionScore = totalPositions > 0 ? positionMatches / totalPositions : 0`. -/
def positionScoreQ (a b : ℕ → ℕ) : ℚ :=
  let p := positionCounts a b
  if 0 < p.2 then (p.1 : ℚ) / (p.2 : ℚ) else 0

/-- The non-degenerate body of `calculatePatternSimilarity`: once past the
guard, the score is a function of the two 16-slot histograms alone.  Near-zero
normalised vectors (`normA < 0.0001 || normB < 0.0001`) score 0; otherwise
`100 * (0.6 * cosine + 0.4 * positionScore)`. -/
noncomputable def scoreFromHists (a b : ℕ → ℕ) : ℝ :=
  let maxAudio := histMax a
  let maxGroove := histMax b
  let dotProduct := dotProd a b maxAudio maxGroove
  let normA := normSq a maxAudio
  let normB := normSq b maxGroove
  if normA < 1 / 10000 ∨ normB < 1 / 10000 then 0
  else
    let cosineSim : ℝ := (dotProduct : ℝ) / (Real.sqrt (normA : ℝ) * Real.sqrt (normB : ℝ))
    let positionScore : ℝ := ((positionScoreQ a b : ℚ) : ℝ)
    (cosineSim * (6 / 10) + positionScore * (4 / 10)) * 100

/-- `AudioAnalyzer::calculatePatternSimilarity`.  Degenerate inputs (no
onsets, or no note-on events in the groove) score 0. -/
noncomputable def calculatePatternSimilarity (pattern : RhythmPattern)
    (groove : Groove) : ℝ :=
  if pattern.onsetTimesBeats = [] ∨ grooveNoteCount groove = 0 then 0
  else scoreFromHists (audioHits pattern.onsetTimesBeats) (grooveHits groove.events)

/-! ## Specification predicates -/

/-- The packed-timeline property, positionally: the first item starts at `s`,
and each item starts where the previous one ends. -/
def PackedFrom (s : ℚ) : List ComposerItem → Prop
  | [] => True
  | item :: rest => item.startBeat = s ∧ PackedFrom (s + item.lengthInBeats) rest

/-- The packed-timeline invariant as stated in the spec:
`item[0].startBeat == 0` and
`item[i+1].startBeat == item[i].startBeat + item[i].lengthInBeats` for all
in-range `i`. -/
def Packed (items : List ComposerItem) : Prop :=
  (items ≠ [] → (items.getD 0 default).startBeat = 0) ∧
  ∀ i : ℕ, i + 1 < items.length →
    (items.getD (i + 1) default).startBeat =
      (items.getD i default).startBeat + (items.getD i default).lengthInBeats

/-- States reachable by an arbitrary sequence of `addToComposer`,
`removeFromComposer` and `moveComposerItem` calls starting from any state with
an empty composer timeline. -/
inductive ComposerReachable : GrooveManagerState → Prop
  | empty (st : GrooveManagerState) (h : st.composerItems = []) :
      ComposerReachable st
  | add (st : GrooveManagerState) (categoryIndex grooveIndex barCount : ℤ)
      (h : ComposerReachable st) :
      ComposerReachable (addToComposer st categoryIndex grooveIndex barCount)
  | remove (st : GrooveManagerState) (index : ℤ) (h : ComposerReachable st) :
      ComposerReachable (removeFromComposer st index)
  | move (st : GrooveManagerState) (fromIndex toIndex : ℤ)
      (h : ComposerReachable st) :
      ComposerReachable (moveComposerItem st fromIndex toIndex)

/-- The last time-signature meta event of an event list, if any: this is what
the overwrite in the parse loop retains. -/
def lastTimeSig (events : List RawEvent) : Option (ℤ × ℤ) :=
  events.foldl
    (fun acc e => match e.msg with
      | RawMsg.timeSig n d => some (n, d)
      | _ => acc)
    none

/-- The largest event time of a groove, as scanned by
`calculateGrooveLength` (fold of `max` starting at 0). -/
def maxEventBeat (groove : Groove) : ℚ :=
  groove.events.foldl (fun m e => max m e.timeInBeats) 0

/-! ## Concrete example data -/

/-- A loaded 4-beat, 4/4 pattern. -/
def gA : Groove :=
  { name := "A", lengthInBeats := 4, numerator := 4, denominator := 4,
    events := [⟨0, ⟨true, 36⟩⟩, ⟨2, ⟨true, 38⟩⟩], isLoaded := true }

/-- A loaded 8-beat, 4/4 pattern. -/
def gB : Groove :=
  { name := "B", lengthInBeats := 8, numerator := 4, denominator := 4,
    events := [⟨0, ⟨true, 36⟩⟩, ⟨7, ⟨true, 38⟩⟩], isLoaded := true }

/-- A manager state with one category holding `gA` and `gB` and an empty
composer timeline. -/
def stScenario : GrooveManagerState :=
  { categories := [⟨"Rock", [gA, gB]⟩] }

/-- A manager state with a loadable groove and a one-item composer timeline. -/
def stC1 : GrooveManagerState :=
  { categories := [⟨"Rock", [gA]⟩], composerItems := [⟨0, 0, 0, 4⟩] }

/-- A loaded 4-beat pattern with a single note-on at beat 3.5. -/
def gA2 : Groove :=
  { name := "A2", lengthInBeats := 4, numerator := 4,
    events := [⟨7/2, ⟨true, 36⟩⟩], isLoaded := true }

/-- A loaded 4-beat pattern with a single note-on at beat 3. -/
def gB2 : Groove :=
  { name := "B2", lengthInBeats := 4, numerator := 4,
    events := [⟨3, ⟨true, 38⟩⟩], isLoaded := true }

/-- A state in mid composer playback on the internal clock: two packed items
(each 4 beats), composer position 3 beats, everything loaded. -/
def stC2 : GrooveManagerState :=
  { categories := [⟨"C", [gA2, gB2]⟩],
    composerItems := [⟨0, 0, 0, 4⟩, ⟨0, 1, 4, 4⟩],
    composerPlaying := true,
    internalPositionBeats := 3,
    composerStartPpq := 0,
    lastProcessedPpq := 0 }

/-- The first composer item of `stC2`. -/
def itemW : ComposerItem := ⟨0, 0, 0, 4⟩

/-- A pattern file with two time-signature meta events (3/4 then 5/8) and one
note. -/
def grooveC4 : Groove :=
  { name := "TS",
    fileTracks := some [[⟨0, RawMsg.timeSig 3 4⟩, ⟨0, RawMsg.timeSig 5 8⟩,
      ⟨0, RawMsg.note ⟨true, 36⟩⟩]] }

/-- A pattern file with a 3/4 time signature and no notes at all. -/
def grooveC5 : Groove :=
  { name := "Empty34", fileTracks := some [[⟨0, RawMsg.timeSig 3 4⟩]] }

/-- A rhythm pattern with no detected onsets. -/
def patEmpty : RhythmPattern := {}

/-- A rhythm pattern with three onsets. -/
def patThree : RhythmPattern := { onsetTimesBeats := [0, 1, 5/2] }

/-! # Theorems -/

/-! ## The packed-timeline invariant (helper lemmas) -/

theorem foldl_add_length (items : List ComposerItem) (a : ℚ) :
    items.foldl (fun length item => length + item.lengthInBeats) a =
      a + (items.map (fun item => item.lengthInBeats)).sum := by
  induction items generalizing a with
  | nil => simp
  | cons x rest ih => simp [List.foldl_cons, ih, add_assoc]

theorem getComposerLengthInBeats_eq_sum (items : List ComposerItem) :
    getComposerLengthInBeats items =
      (items.map (fun item => item.lengthInBeats)).sum := by
  simpa using foldl_add_length items 0

theorem packedFrom_append_last (items : List ComposerItem) (s : ℚ)
    (item : ComposerItem) (hp : PackedFrom s items)
    (hstart : item.startBeat = s + (items.map (fun it => it.lengthInBeats)).sum) :
    PackedFrom s (items ++ [item]) := by
  induction items generalizing s with
  | nil =>
      simpa [PackedFrom] using hstart
  | cons x rest ih =>
      obtain ⟨hx, hrest⟩ := hp
      exact ⟨hx, ih (s + x.lengthInBeats) hrest (by simpa [add_assoc] using hstart)⟩

theorem packedFrom_map_shift (items : List ComposerItem) (s d : ℚ)
    (hp : PackedFrom s items) :
    PackedFrom (s - d)
      (items.map (fun it => { it with startBeat := it.startBeat - d })) := by
  induction items generalizing s with
  | nil => trivial
  | cons x rest ih =>
      obtain ⟨hx, hrest⟩ := hp
      refine ⟨by simp [hx], ?_⟩
      have := ih (s + x.lengthInBeats) hrest
      simpa [sub_add_eq_add_sub] using this

theorem packedFrom_repackFrom (items : List ComposerItem) (s : ℚ) :
    PackedFrom s (repackFrom s items) := by
  induction items generalizing s with
  | nil => trivial
  | cons x rest ih => exact ⟨rfl, ih (s + x.lengthInBeats)⟩

theorem packedFrom_eraseIdx_shift (items : List ComposerItem) (i : ℕ) (s : ℚ)
    (hi : i < items.length) (hp : PackedFrom s items) :
    PackedFrom s
      ((items.eraseIdx i).take i ++
        ((items.eraseIdx i).drop i).map
          (fun it => { it with
            startBeat := it.startBeat - (items.getD i default).lengthInBeats })) := by
  induction items generalizing i s with
  | nil => simp at hi
  | cons x rest ih =>
      obtain ⟨hx, hrest⟩ := hp
      cases i with
      | zero =>
          simpa using packedFrom_map_shift rest (s + x.lengthInBeats)
            x.lengthInBeats hrest
      | succ j =>
          have hj : j < rest.length := by simpa using hi
          refine ⟨hx, ?_⟩
          simpa using ih j (s + x.lengthInBeats) hj hrest

theorem packedFrom_head (items : List ComposerItem) (s : ℚ)
    (hp : PackedFrom s items) (hne : items ≠ []) :
    (items.getD 0 default).startBeat = s := by
  cases items with
  | nil => exact absurd rfl hne
  | cons x rest => exact hp.1

theorem packedFrom_consec (items : List ComposerItem) (s : ℚ)
    (hp : PackedFrom s items) :
    ∀ i : ℕ, i + 1 < items.length →
      (items.getD (i + 1) default).startBeat =
        (items.getD i default).startBeat + (items.getD i default).lengthInBeats := by
  induction items generalizing s with
  | nil => intro i hi; simp at hi
  | cons x rest ih =>
      obtain ⟨hx, hrest⟩ := hp
      intro i hi
      cases i with
      | zero =>
          cases rest with
          | nil => simp at hi
          | cons y rest' =>
              have hy : y.startBeat = s + x.lengthInBeats := hrest.1
              simp [hy, hx]
      | succ j =>
          have hj : j + 1 < rest.length := by simpa using hi
          simpa using ih (s + x.lengthInBeats) hrest j hj

theorem packed_of_packedFrom (items : List ComposerItem)
    (hp : PackedFrom 0 items) : Packed items :=
  ⟨packedFrom_head items 0 hp, packedFrom_consec items 0 hp⟩

theorem loadGroove_composerItems (st : GrooveManagerState)
    (categoryIndex grooveIndex : ℤ) :
    ((loadGroove st categoryIndex grooveIndex).2).composerItems =
      st.composerItems := by
  unfold loadGroove
  cases getGroove st categoryIndex grooveIndex with
  | none => rfl
  | some groove =>
      by_cases h : groove.isLoaded = true
      · simp [h]
      · simp only [h]
        cases parseMidiFile groove with
        | none => simp
        | some g => simp [setGroove]

theorem addToComposer_packed (st : GrooveManagerState)
    (categoryIndex grooveIndex barCount : ℤ)
    (hp : PackedFrom 0 st.composerItems) :
    PackedFrom 0 (addToComposer st categoryIndex grooveIndex barCount).composerItems := by
  have h2 : ((loadGroove st categoryIndex grooveIndex).2).composerItems =
      st.composerItems := loadGroove_composerItems st categoryIndex grooveIndex
  unfold addToComposer
  by_cases hok : (loadGroove st categoryIndex grooveIndex).1 = true
  · simp only [hok, Bool.not_true, Bool.false_eq_true, if_false]
    cases hg : getGroove (loadGroove st categoryIndex grooveIndex).2
        categoryIndex grooveIndex with
    | none => simpa [h2] using hp
    | some groove =>
        simp only
        refine packedFrom_append_last _ 0 _ (by simpa [h2] using hp) ?_
        simp [getComposerLengthInBeats_eq_sum, h2]
  · simp only [Bool.not_eq_true] at hok
    simp only [hok, Bool.not_false, if_true]
    simpa [h2] using hp

theorem removeFromComposer_packed (st : GrooveManagerState) (index : ℤ)
    (hp : PackedFrom 0 st.composerItems) :
    PackedFrom 0 (removeFromComposer st index).composerItems := by
  unfold removeFromComposer
  by_cases hb : index < 0 ∨ (st.composerItems.length : ℤ) ≤ index
  · simpa [hb] using hp
  · have hi : index.toNat < st.composerItems.length := by omega
    simp only [if_neg hb]
    exact packedFrom_eraseIdx_shift st.composerItems index.toNat 0 hi hp

theorem moveComposerItem_packed (st : GrooveManagerState) (fromIndex toIndex : ℤ)
    (hp : PackedFrom 0 st.composerItems) :
    PackedFrom 0 (moveComposerItem st fromIndex toIndex).composerItems := by
  unfold moveComposerItem
  by_cases h1 : fromIndex < 0 ∨ (st.composerItems.length : ℤ) ≤ fromIndex
  · simpa [h1] using hp
  · by_cases h2 : toIndex < 0 ∨ (st.composerItems.length : ℤ) ≤ toIndex
    · simpa [h1, h2] using hp
    · by_cases h3 : fromIndex = toIndex
      · simpa [h1, h2, h3] using hp
      · simp only [if_neg h1, if_neg h2, if_neg h3]
        exact packedFrom_repackFrom _ 0

/-- C3: the composer timeline is packed in every state reachable by any
sequence of `addToComposer`, `removeFromComposer` and `moveComposerItem`
calls: if the item list is non-empty then `item[0].startBeat = 0`, and
`item[i+1].startBeat = item[i].startBeat + item[i].lengthInBeats` for every
in-range `i`. -/
theorem composer_timeline_packed (st : GrooveManagerState)
    (h : ComposerReachable st) : Packed st.composerItems := by
  refine packed_of_packedFrom _ ?_
  induction h with
  | empty st h => rw [h]; trivial
  | add st ci gi bc h ih => exact addToComposer_packed st ci gi bc ih
  | remove st i h ih => exact removeFromComposer_packed st i ih
  | move st f t h ih => exact moveComposerItem_packed st f t ih

/-- Witness for C3: a concrete reachable state (add, add, then remove the
first item) is packed. -/
theorem composer_timeline_packed_witness :
    Packed (removeFromComposer
      (addToComposer (addToComposer stScenario 0 0 0) 0 1 2) 0).composerItems :=
  composer_timeline_packed _
    (ComposerReachable.remove _ 0
      (ComposerReachable.add _ 0 1 2
        (ComposerReachable.add _ 0 0 0 (ComposerReachable.empty _ rfl))))

/-! ## `loadGroove` only touches the catalog -/

theorem loadGroove_state_eq (st : GrooveManagerState) (ci gi : ℤ) :
    (loadGroove st ci gi).2 =
      { st with categories := ((loadGroove st ci gi).2).categories } := by
  unfold loadGroove
  cases getGroove st ci gi with
  | none => rfl
  | some groove =>
      by_cases h : groove.isLoaded = true
      · simp [h]
      · simp only [Bool.not_eq_true] at h
        simp only [h]
        cases parseMidiFile groove with
        | none => rfl
        | some g => rfl

theorem loadGroove_composerPlaying (st : GrooveManagerState) (ci gi : ℤ) :
    ((loadGroove st ci gi).2).composerPlaying = st.composerPlaying := by
  rw [loadGroove_state_eq]

theorem loadGroove_fail_state (st : GrooveManagerState) (ci gi : ℤ)
    (h : (loadGroove st ci gi).1 = false) : (loadGroove st ci gi).2 = st := by
  unfold loadGroove at h ⊢
  cases hg : getGroove st ci gi with
  | none => rfl
  | some groove =>
      rw [hg] at h
      by_cases hl : groove.isLoaded = true
      · simp [hl] at h
      · simp only [Bool.not_eq_true] at hl
        cases hp : parseMidiFile groove with
        | none => simp [hl, hp]
        | some g => simp [hl, hp] at h

/-- C10: `startPlayback` is atomic on failure: whenever the load step fails
(out-of-bounds index, missing file, or unparsable file — exactly the cases in
which `loadGroove` returns `false`), the whole manager state, and with it
every playback field and an active composer playback, is left unchanged. -/
theorem startPlayback_atomic_on_failure (st : GrooveManagerState) (ci gi : ℤ)
    (h : (loadGroove st ci gi).1 = false) : startPlayback st ci gi = st := by
  unfold startPlayback
  rw [h, loadGroove_fail_state st ci gi h]
  rfl

/-- Witness for C10: starting playback with an out-of-range category index
leaves the state untouched. -/
theorem startPlayback_atomic_on_failure_witness :
    (loadGroove stScenario 5 0).1 = false ∧ startPlayback stScenario 5 0 = stScenario :=
  ⟨by decide, startPlayback_atomic_on_failure stScenario 5 0 (by decide)⟩

/-- Counterexample to C1 as stated: after a successful `startComposerPlayback`
followed by a successful `startPlayback`, the `playing` and `composerPlaying`
flags are both true — `startPlayback` does not stop composer playback. -/
theorem start_mutual_exclusion_counterexample :
    (startPlayback (startComposerPlayback stC1) 0 0).playing = true ∧
    (startPlayback (startComposerPlayback stC1) 0 0).composerPlaying = true := by
  constructor <;> rfl

/-- C1 amended: `startComposerPlayback` on a non-empty timeline does stop
single-pattern playback (`playing := false`, `composerPlaying := true`), but
`startPlayback` never modifies `composerPlaying`, so the two flags can be
simultaneously true. -/
theorem start_mutual_exclusion_amended (st : GrooveManagerState) :
    (st.composerItems ≠ [] →
      (startComposerPlayback st).playing = false ∧
      (startComposerPlayback st).composerPlaying = true) ∧
    (∀ ci gi : ℤ, (startPlayback st ci gi).composerPlaying = st.composerPlaying) := by
  constructor
  · intro hne
    unfold startComposerPlayback
    rw [if_neg hne]
    exact ⟨rfl, rfl⟩
  · intro ci gi
    unfold startPlayback
    by_cases hok : (loadGroove st ci gi).1 = true
    · simp only [hok, Bool.not_true, Bool.false_eq_true, if_false]
      exact loadGroove_composerPlaying st ci gi
    · simp only [Bool.not_eq_true] at hok
      simp only [hok, Bool.not_false, if_true]
      exact loadGroove_composerPlaying st ci gi

/-- Witness for C1 amended, at the concrete state `stC1`. -/
theorem start_mutual_exclusion_amended_witness :
    ((startComposerPlayback stC1).playing = false ∧
      (startComposerPlayback stC1).composerPlaying = true) ∧
    (startPlayback stC1 0 0).composerPlaying = stC1.composerPlaying :=
  ⟨(start_mutual_exclusion_amended stC1).1 (by decide),
   (start_mutual_exclusion_amended stC1).2 0 0⟩

/-- C7 amended: `addToComposer` on a loadable groove appends exactly one item
whose `startBeat` is the timeline's total length before the call; its
`lengthInBeats` is the groove's full length when `barCount ≤ 0` (the code
treats every non-positive bar count as "full pattern"), and otherwise
`min (barCount * numerator) lengthInBeats`. -/
theorem addToComposer_appends (st : GrooveManagerState) (ci gi barCount : ℤ)
    (groove : Groove) (hok : (loadGroove st ci gi).1 = true)
    (hg : getGroove (loadGroove st ci gi).2 ci gi = some groove) :
    (addToComposer st ci gi barCount).composerItems =
      st.composerItems ++
        [⟨ci, gi, getComposerLengthInBeats st.composerItems,
          if barCount ≤ 0 then groove.lengthInBeats
          else min ((barCount : ℚ) * (groove.numerator : ℚ)) groove.lengthInBeats⟩] := by
  have hitems := loadGroove_composerItems st ci gi
  unfold addToComposer
  simp only [hok, Bool.not_true, Bool.false_eq_true, if_false, hg]
  rw [hitems]
  congr 2
  by_cases hbc : barCount ≤ 0
  · simp [hbc]
  · simp only [hbc, if_false]
    rcases le_or_lt ((barCount : ℚ) * (groove.numerator : ℚ)) groove.lengthInBeats with h | h
    · rw [if_neg (not_lt.mpr h), min_eq_left h]
    · rw [if_pos h, min_eq_right h.le]

/-- Counterexample to C7 as stated: with `barCount = -1` (which is not 0), the
code uses the full groove length (8 beats), not
`min(barCount * numerator, lengthInBeats) = -4`. -/
theorem addToComposer_negative_barCount_counterexample :
    (addToComposer stScenario 0 1 (-1)).composerItems = [⟨0, 1, 0, 8⟩] ∧
    ¬((8 : ℚ) = min ((-1 : ℚ) * 4) 8) := by
  constructor
  · simp [addToComposer, loadGroove, getGroove, stScenario, gA, gB,
      getComposerLengthInBeats]
  · rw [min_eq_left (by norm_num)]
    norm_num

/-- Witness for C7 amended: the spec's own scenario — add the 4-beat `gA` with
`barCount = 0` (item at start 0, length 4), then the 8-beat 4/4 `gB` with
`barCount = 2` (item at start 4, length 8). -/
theorem addToComposer_appends_witness :
    (loadGroove stScenario 0 0).1 = true ∧
    (addToComposer (addToComposer stScenario 0 0 0) 0 1 2).composerItems =
      [⟨0, 0, 0, 4⟩, ⟨0, 1, 4, 8⟩] := by
  refine ⟨by decide, ?_⟩
  have h1 := addToComposer_appends stScenario 0 0 0 gA (by decide) (by decide)
  have h2 := addToComposer_appends (addToComposer stScenario 0 0 0) 0 1 2 gB
    (by decide) (by decide)
  rw [h2, h1]
  simp [stScenario, gA, gB, getComposerLengthInBeats]
  norm_num [min_def]

/-! ## Time-signature capture during parsing -/

theorem foldl_processRawEvent_timeSig (es : List RawEvent) (st : ParseState) :
    ((es.foldl processRawEvent st).numerator,
      (es.foldl processRawEvent st).denominator) =
      (lastTimeSig es).getD (st.numerator, st.denominator) := by
  induction es using List.reverseRecOn with
  | nil => simp [lastTimeSig]
  | append_singleton es e ih =>
      cases e with
      | mk ts m =>
          cases m <;>
            simp [lastTimeSig, List.foldl_append, processRawEvent, lastTimeSig] at ih ⊢ <;>
            simpa [lastTimeSig] using ih

theorem parseTracks_eq_foldl_flatten (tracks : List (List RawEvent)) :
    parseTracks tracks = tracks.flatten.foldl processRawEvent ⟨120, 4, 4, []⟩ :=
  (List.foldl_flatten processRawEvent ⟨120, 4, 4, []⟩ tracks).symm

/-- C4 amended: when a pattern file contains time-signature meta events, the
loaded groove's numerator and denominator are those of the **last**
time-signature marker encountered (tracks in order, events in order) — each
marker overwrites the previous one — and they default to 4/4 when the file
contains none. -/
theorem parse_time_signature_last (groove : Groove)
    (tracks : List (List RawEvent)) (g' : Groove)
    (hf : groove.fileTracks = some tracks)
    (hp : parseMidiFile groove = some g') :
    (g'.numerator, g'.denominator) = (lastTimeSig tracks.flatten).getD (4, 4) := by
  unfold parseMidiFile at hp
  rw [hf] at hp
  simp only [Option.some.injEq] at hp
  subst hp
  show ((parseTracks tracks).numerator, (parseTracks tracks).denominator) = _
  rw [parseTracks_eq_foldl_flatten]
  exact foldl_processRawEvent_timeSig tracks.flatten ⟨120, 4, 4, []⟩

/-- Counterexample to C4 as stated: a file carrying time signatures 3/4 then
5/8 loads with numerator 5 — the last marker, not the first (3). -/
theorem parse_first_time_signature_counterexample :
    (parseMidiFile grooveC4).map (fun g => g.numerator) = some 5 ∧ (5 : ℤ) ≠ 3 := by
  constructor
  · simp [parseMidiFile, grooveC4, parseTracks, processRawEvent]
  · decide

/-- Witness for C4 amended at the two-marker file `grooveC4`. -/
theorem parse_time_signature_last_witness :
    (((parseMidiFile grooveC4).getD default).numerator,
      ((parseMidiFile grooveC4).getD default).denominator) =
      (lastTimeSig ([[⟨0, RawMsg.timeSig 3 4⟩, ⟨0, RawMsg.timeSig 5 8⟩,
        ⟨0, RawMsg.note ⟨true, 36⟩⟩]] : List (List RawEvent)).flatten).getD (4, 4) :=
  parse_time_signature_last grooveC4 _ _ rfl rfl

/-- C5 amended: for a groove with at least one stored event,
`calculateGrooveLength` is `ceil(maxEventBeat / beatsPerBar) * beatsPerBar`
with a minimum of one bar, where `beatsPerBar` is the parsed numerator; a
groove with zero events gets the hard-coded length 4.0 (one 4/4 bar)
regardless of its parsed numerator. -/
theorem groove_length_formula (groove : Groove) :
    (groove.events ≠ [] →
      calculateGrooveLength groove =
        max (⌈maxEventBeat groove / (groove.numerator : ℚ)⌉ : ℚ) 1 *
          (groove.numerator : ℚ)) ∧
    (groove.events = [] → calculateGrooveLength groove = 4) := by
  constructor
  · intro hne
    simp only [calculateGrooveLength, maxEventBeat]
    rw [if_neg hne]
    split_ifs with h
    · rw [max_eq_right h.le]
    · rw [max_eq_left (not_lt.mp h)]
  · intro he
    simp only [calculateGrooveLength]
    rw [if_pos he]

/-- Counterexample to C5 as stated: a loaded groove with numerator 3 and zero
note events has length 4.0, not one bar (3 beats). -/
theorem groove_length_empty_counterexample :
    (parseMidiFile grooveC5).map
        (fun g => (g.numerator, g.events.length, g.lengthInBeats)) =
      some (3, 0, 4) ∧ (4 : ℚ) ≠ 3 := by
  constructor
  · simp [parseMidiFile, grooveC5, parseTracks, processRawEvent, calculateGrooveLength]
  · decide

/-- Witness for C5 amended at the non-empty groove `gA`. -/
theorem groove_length_formula_witness :
    gA.events ≠ [] ∧
    calculateGrooveLength gA =
      max (⌈maxEventBeat gA / (gA.numerator : ℚ)⌉ : ℚ) 1 * (gA.numerator : ℚ) :=
  ⟨by decide, (groove_length_formula gA).1 (by decide)⟩

/-- C6: with a non-negative scan state (the looping branches clamp
`lastPosition` to be ≥ 0, and a wrapped `groovePosition` lies in `[0, L)`), a
stored event at time exactly 0 is selected iff the block's interval wraps
(`groovePosition < lastPosition`) — it is picked up only by the wrapped tail
`t ≤ groovePosition`, never by the open start `t > lastPosition` — and within
one block no stored event is emitted more often than it is stored. -/
theorem loop_boundary_policy (events : List MidiEvent)
    (lastPosition groovePosition : ℚ)
    (hlast : 0 ≤ lastPosition) (hpos : 0 ≤ groovePosition) :
    (∀ e ∈ events, e.timeInBeats = 0 →
      (e ∈ singleEmit events lastPosition groovePosition ↔
        groovePosition < lastPosition)) ∧
    (∀ e : MidiEvent,
      (singleEmit events lastPosition groovePosition).count e ≤ events.count e) := by
  constructor
  · intro e he ht
    unfold singleEmit
    rw [List.mem_filter]
    unfold singleShouldTrigger
    rw [ht]
    by_cases hc : lastPosition ≤ groovePosition
    · rw [if_pos hc]
      constructor
      · rintro ⟨-, htr⟩
        simp only [Bool.and_eq_true, decide_eq_true_eq] at htr
        exact absurd htr.1 (not_lt.mpr hlast)
      · intro hlt
        exact absurd hlt (not_lt.mpr hc)
    · rw [if_neg hc]
      push_neg at hc
      constructor
      · intro _
        exact hc
      · intro _
        refine ⟨he, ?_⟩
        simp only [Bool.or_eq_true, decide_eq_true_eq]
        exact Or.inr hpos
  · intro e
    exact (List.filter_sublist events).count_le e

/-- Witness for C6: a single event at time 0, a wrapping block
`lastPosition = 1`, `groovePosition = 1/2`. -/
theorem loop_boundary_policy_witness :
    (0 : ℚ) ≤ 1 ∧ (0 : ℚ) ≤ 1/2 ∧
    ((∀ e ∈ [(⟨0, ⟨true, 36⟩⟩ : MidiEvent)], e.timeInBeats = 0 →
      (e ∈ singleEmit [⟨0, ⟨true, 36⟩⟩] 1 (1/2) ↔ (1/2 : ℚ) < 1)) ∧
     (∀ e : MidiEvent,
      (singleEmit [⟨0, ⟨true, 36⟩⟩] 1 (1/2)).count e ≤
        ([(⟨0, ⟨true, 36⟩⟩ : MidiEvent)]).count e)) :=
  ⟨by norm_num, by norm_num,
    loop_boundary_policy [⟨0, ⟨true, 36⟩⟩] 1 (1/2) (by norm_num) (by norm_num)⟩

/-- Counterexample to C2 as stated: in `stC2` the block covers the composer
interval (3, 5]; the first item's window [0, 4) intersects it, its groove has
a stored event at time 3.5 inside the translated clipped intersection (3, 4),
yet the block emits nothing at all — the code only scans the item containing
`composerPosition = 5`, whose own groove has no event in (0, 1]. -/
theorem composer_pass_through_counterexample :
    (processBlock stC2 0 0 false 44100).2 = [] ∧
    ((3 : ℚ) < 7/2 ∧ (7/2 : ℚ) < 4 ∧ (7/2 : ℚ) ≤ 5) := by
  constructor
  · simp only [processBlock, processComposerBranch, composerEmit,
      composerItemContribution, getGroove, stC2, gA2, gB2,
      getComposerLengthInBeats, internalLastPositionC, wrapIters, singleEmit]
    norm_num
    constructor <;> norm_num [composerItemContribution, getGroove, gA2, gB2]
  · norm_num

/-- C2 amended: a composer item contributes events only when
`composerPosition` lies inside its window
`[startBeat, startBeat + lengthInBeats)`; in that case it emits exactly the
stored events of its groove whose time `t` satisfies `t < lengthInBeats`,
`t > max 0 (lastPositionInComposer - startBeat)` and
`t ≤ composerPosition - startBeat`.  Items whose window merely intersects the
covered interval but does not contain `composerPosition` emit nothing. -/
theorem composer_item_contribution_spec (grooveOf : ℤ → ℤ → Option Groove)
    (composerPosition lastPositionInComposer : ℚ) (item : ComposerItem)
    (groove : Groove)
    (hg : grooveOf item.grooveCategoryIndex item.grooveIndex = some groove)
    (hl : groove.isLoaded = true) :
    composerItemContribution grooveOf composerPosition lastPositionInComposer item =
      if item.startBeat ≤ composerPosition ∧
          composerPosition < item.startBeat + item.lengthInBeats then
        groove.events.filter (fun e =>
          decide (e.timeInBeats < item.lengthInBeats) &&
          decide (max 0 (lastPositionInComposer - item.startBeat) < e.timeInBeats) &&
          decide (e.timeInBeats ≤ composerPosition - item.startBeat))
      else [] := by
  unfold composerItemContribution
  rw [hg]
  simp only [hl, Bool.not_true, Bool.false_eq_true, if_false]
  by_cases h : item.startBeat ≤ composerPosition ∧
      composerPosition < item.startBeat + item.lengthInBeats
  · rw [if_pos h, if_pos h]
    have hmax : (if lastPositionInComposer - item.startBeat < 0 then 0
        else lastPositionInComposer - item.startBeat) =
        max 0 (lastPositionInComposer - item.startBeat) := by
      rcases lt_or_le (lastPositionInComposer - item.startBeat) 0 with h2 | h2
      · rw [if_pos h2, max_eq_left h2.le]
      · rw [if_neg (not_lt.mpr h2), max_eq_right h2]
    rw [hmax]
  · rw [if_neg h, if_neg h]

/-- Witness for C2 amended: the first item of `stC2` at
`composerPosition = 5`, `lastPositionInComposer = 3`. -/
theorem composer_item_contribution_spec_witness :
    getGroove stC2 0 0 = some gA2 ∧ gA2.isLoaded = true ∧
    composerItemContribution (fun ci gi => getGroove stC2 ci gi) 5 3 itemW =
      (if itemW.startBeat ≤ (5 : ℚ) ∧
          (5 : ℚ) < itemW.startBeat + itemW.lengthInBeats then
        gA2.events.filter (fun e =>
          decide (e.timeInBeats < itemW.lengthInBeats) &&
          decide (max 0 ((3 : ℚ) - itemW.startBeat) < e.timeInBeats) &&
          decide (e.timeInBeats ≤ (5 : ℚ) - itemW.startBeat))
      else []) :=
  ⟨rfl, rfl, composer_item_contribution_spec _ 5 3 itemW gA2 rfl rfl⟩

/-! ## Rhythm-matching properties -/

theorem le_histMax (h : ℕ → ℕ) : 1 ≤ histMax h := by
  have step : ∀ (l : List ℕ) (a : ℕ), a ≤ l.foldl (fun m i => max m (h i)) a := by
    intro l
    induction l with
    | nil => intro a; exact le_refl a
    | cons x rest ih => intro a; exact le_trans (le_max_left a (h x)) (ih _)
  exact step (List.range 16) 1

/-- C8: the similarity score is 0 when the onset list is empty or the groove
has zero note-on events; and every division performed past that guard has a
nonzero denominator — the max-normalisers start at 1, the cosine denominator
`sqrt(normA) * sqrt(normB)` is nonzero whenever the `< 0.0001` guard falls
through, and the position score performs no division when
`totalPositions = 0`. -/
theorem similarity_degenerate_zero (pattern : RhythmPattern) (groove : Groove) :
    ((pattern.onsetTimesBeats = [] ∨ grooveNoteCount groove = 0) →
      calculatePatternSimilarity pattern groove = 0) ∧
    (1 ≤ histMax (audioHits pattern.onsetTimesBeats) ∧
      1 ≤ histMax (grooveHits groove.events)) ∧
    (∀ nA nB : ℚ,
      ¬(nA < 1 / 10000) → ¬(nB < 1 / 10000) →
        Real.sqrt (nA : ℝ) * Real.sqrt (nB : ℝ) ≠ 0) ∧
    ((positionCounts (audioHits pattern.onsetTimesBeats)
        (grooveHits groove.events)).2 = 0 →
      positionScoreQ (audioHits pattern.onsetTimesBeats)
        (grooveHits groove.events) = 0) := by
  refine ⟨?_, ⟨le_histMax _, le_histMax _⟩, ?_, ?_⟩
  · intro h
    unfold calculatePatternSimilarity
    rw [if_pos h]
  · intro nA nB hA hB
    have hA' : (0 : ℝ) < (nA : ℝ) := by
      have : (0 : ℚ) < nA := lt_of_lt_of_le (by norm_num) (not_lt.mp hA)
      exact_mod_cast this
    have hB' : (0 : ℝ) < (nB : ℝ) := by
      have : (0 : ℚ) < nB := lt_of_lt_of_le (by norm_num) (not_lt.mp hB)
      exact_mod_cast this
    exact (mul_pos (Real.sqrt_pos.mpr hA') (Real.sqrt_pos.mpr hB')).ne'
  · intro h
    simp only [positionScoreQ, h]
    norm_num

/-- Witness for C8: a degenerate input (no onsets) scores 0, and the
normalisers are ≥ 1 on a non-degenerate input. -/
theorem similarity_degenerate_zero_witness :
    calculatePatternSimilarity patEmpty gA = 0 ∧
    (1 ≤ histMax (audioHits patThree.onsetTimesBeats) ∧
      1 ≤ histMax (grooveHits gA.events)) :=
  ⟨(similarity_degenerate_zero patEmpty gA).1 (Or.inl rfl),
    (similarity_degenerate_zero patThree gA).2.1⟩

theorem foldl_bump (onsets : List ℚ) (h0 : ℕ → ℕ) (i : ℕ) :
    (onsets.foldl (fun h t => bumpSlot h (slotOf t)) h0) i =
      h0 i + onsets.countP (fun t => slotOf t == i) := by
  induction onsets generalizing h0 with
  | nil => simp
  | cons t rest ih =>
      rw [List.foldl_cons, ih]
      by_cases ht : slotOf t = i
      · simp only [bumpSlot, ht, List.countP_cons, decide_eq_true_eq, if_pos]
        simp
        omega
      · have hne : ¬(i = slotOf t) := fun hh => ht hh.symm
        simp [bumpSlot, ht, hne, List.countP_cons]

theorem audioHits_perm (onsets onsets' : List ℚ)
    (hperm : onsets.Perm onsets') : audioHits onsets = audioHits onsets' := by
  funext i
  rw [audioHits, audioHits, foldl_bump, foldl_bump, hperm.countP_eq]

/-- C9: permuting the detected onset-time list does not change the similarity
score — the score depends only on the multiset of onset times. -/
theorem matchScore_perm_invariant (bpm confidence : ℚ) (beatsPerBar : ℤ)
    (lengthInBeats : ℚ) (onsets onsets' : List ℚ) (groove : Groove)
    (hperm : onsets.Perm onsets') :
    calculatePatternSimilarity ⟨bpm, confidence, onsets, beatsPerBar, lengthInBeats⟩
        groove =
      calculatePatternSimilarity ⟨bpm, confidence, onsets', beatsPerBar, lengthInBeats⟩
        groove := by
  have hhits := audioHits_perm onsets onsets' hperm
  unfold calculatePatternSimilarity
  by_cases hd : onsets' = [] ∨ grooveNoteCount groove = 0
  · have hd' : onsets = [] ∨ grooveNoteCount groove = 0 := by
      rcases hd with h | h
      · exact Or.inl (List.Perm.eq_nil (h ▸ hperm))
      · exact Or.inr h
    rw [if_pos hd', if_pos hd]
  · have hd' : ¬(onsets = [] ∨ grooveNoteCount groove = 0) := by
      intro hcon
      apply hd
      rcases hcon with h | h
      · exact Or.inl ((h ▸ hperm).symm.eq_nil)
      · exact Or.inr h
    rw [if_neg hd', if_neg hd, hhits]

/-- Witness for C9: swapping two onsets leaves the score unchanged. -/
theorem matchScore_perm_invariant_witness :
    ([(0 : ℚ), 1] : List ℚ).Perm [1, 0] ∧
    calculatePatternSimilarity ⟨120, 0, [0, 1], 4, 0⟩ gA =
      calculatePatternSimilarity ⟨120, 0, [1, 0], 4, 0⟩ gA :=
  ⟨List.Perm.swap 1 0 [], matchScore_perm_invariant 120 0 4 0 [0, 1] [1, 0] gA
    (List.Perm.swap 1 0 [])⟩

end JDrummer
